import Mathlib

/-!
Verification of the operator-splitting time-integration core of the xalbrain
cardiac electrophysiology solver (`xalbrain/splittingsolver.py`).

The shallow embedding models the `SplittingSolver` class as a state machine
over an abstract composite state.  The ODE and PDE sub-solvers are external
collaborators (their internals live in `xalbrain/cellsolver.py`,
`xalbrain/bidomainsolver.py`, `xalbrain/monodomainsolver.py`); following their
interface contract they are modelled as abstract step functions:

  * the ODE sub-solver's `step((a, b))` reads its previous solution field
    `vs_` and writes its current solution field `vs` (these are the very same
    Python objects as the splitting solver's `self.vs_` / `self.vs`, bound in
    `__init__` via `self.vs_, self.vs = self.ode_solver.solution_fields()`);
  * the PDE sub-solver's `step((a, b))` reads its previous potential `v_`
    (bound at construction to `self.vs[0]`, the transmembrane sub-component of
    the splitting solver's current composite state) and writes its current
    solution field `vur` (the same object as `self.vur`).

Times are modelled as rationals: the Python source manipulates floats only
through arithmetic (`dt = t1 - t0`, `t = t0 + theta*dt`) and exact comparison
(`theta == 1.0`), both of which the claims quantify over exactly.
-/

namespace ECT

/-- The composite state `vs` (a mixed `dolfin.Function`): the transmembrane
potential sub-component `v = vs.sub(0)` together with the remaining cell-model
state variables `s`. -/
structure CompositeState (V S : Type) where
  v : V
  s : S
deriving DecidableEq

/-- The PDE solver's solution field `vur`.  For the bidomain solver classes
(`pde_parameters.solver` one of `"BasicBidomainSolver"`, `"BidomainSolver"`)
this is a mixed function whose sub-component `sub(0)` is the transmembrane
potential and whose remaining components hold the extracellular potential and
possibly a Lagrange multiplier; for the monodomain classes `vur` is the
transmembrane potential function itself.  The constructor tag records which
solver class was selected at construction, exactly the information the Python
code recovers by testing `self.pde_parameters.solver in
("BasicBidomainSolver", "BidomainSolver")`. -/
inductive VUR (V U : Type) where
  | bi (v : V) (u : U)
  | mono (v : V)
deriving DecidableEq

/-- The PDE solver's current transmembrane potential, as extracted by
`SplittingSolver.merge` (lines 398--401): `self.vur.sub(0)` for the bidomain
solvers, `self.vur` itself for the monodomain solvers. -/
def VUR.subv {V U : Type} : VUR V U → V
  | .bi v _ => v
  | .mono v => v

/-- The mutable solution fields owned by a `SplittingSolver`: previous
composite state `self.vs_`, current composite state `self.vs`, and the PDE
solution field `self.vur`. -/
structure SolverState (V S U : Type) where
  vs_ : CompositeState V S
  vs : CompositeState V S
  vur : VUR V U
deriving DecidableEq

/-- `SplittingSolver.merge(solution)` (lines 388--405): assigns the PDE
solver's current transmembrane potential into `solution.sub(0)` via the
`FunctionAssigner` created in `__init__`; all other sub-components of
`solution` are untouched. -/
def merge {V S U : Type} (vur : VUR V U) (solution : CompositeState V S) :
    CompositeState V S :=
  { solution with v := vur.subv }

/-- `SplittingSolver.step(interval)` (lines 329--386), with the two abstract
sub-solver step functions passed explicitly.  `ode a b x` is the composite
state the ODE solver writes into `vs` when stepping over `(a, b)` from
previous state `x`; `pde a b v w` is the field the PDE solver writes into
`vur` when stepping over `(a, b)` with previous transmembrane potential `v`
(aliasing `vs.sub(0)`) and previous PDE field `w`. -/
def step {V S U : Type} (ode : ℚ → ℚ → CompositeState V S → CompositeState V S)
    (pde : ℚ → ℚ → V → VUR V U → VUR V U)
    (theta t0 t1 : ℚ) (st : SolverState V S U) : SolverState V S U :=
  let dt := t1 - t0
  let t := t0 + theta * dt
  -- Tentative ODE step: `self.ode_solver.step((t0, t))` reads `vs_`, writes `vs`
  let st1 : SolverState V S U := { st with vs := ode t0 t st.vs_ }
  -- PDE step: `self.pde_solver.step((t0, t1))` reads `v_` (= `vs.sub(0)`), writes `vur`
  let st2 : SolverState V S U := { st1 with vur := pde t0 t1 st1.vs.v st1.vur }
  if theta = 1 then
    -- `self.merge(self.vs)` then `return`
    { st2 with vs := merge st2.vur st2.vs }
  else
    -- `self.vs_.assign(self.vs)`
    let st3 : SolverState V S U := { st2 with vs_ := st2.vs }
    -- `self.merge(self.vs_)`
    let st4 : SolverState V S U := { st3 with vs_ := merge st3.vur st3.vs_ }
    -- `self.ode_solver.step((t, t1))` reads `vs_`, writes `vs`
    let st5 : SolverState V S U := { st4 with vs := ode t t1 st4.vs_ }
    -- `self.vs_.assign(self.vs)`
    { st5 with vs_ := st5.vs }

/-- Definition following the words of claim C1 (the sequence the spec states
for one timestep), to be compared with `step` which is translated line by
line from the source. -/
def stepSpecC1 {V S U : Type}
    (ode : ℚ → ℚ → CompositeState V S → CompositeState V S)
    (pde : ℚ → ℚ → V → VUR V U → VUR V U)
    (theta t0 t1 : ℚ) (st : SolverState V S U) : SolverState V S U :=
  let dt := t1 - t0
  -- tentative ODE sub-step over (t0, t0 + theta*dt) reading vs_, producing vs
  let vsTent := ode t0 (t0 + theta * dt) st.vs_
  -- PDE sub-step over (t0, t1) with the tentative transmembrane potential frozen
  let vurNew := pde t0 t1 vsTent.v st.vur
  if theta = 1 then
    -- merge PDE transmembrane potential into vs (auxiliary variables retained), stop
    { vs_ := st.vs_, vs := merge vurNew vsTent, vur := vurNew }
  else
    -- previous := current; merge PDE transmembrane potential into previous
    let prevMerged := merge vurNew vsTent
    -- ODE sub-step over (t0 + theta*dt, t1) producing the final current state
    let vsFinal := ode (t0 + theta * dt) t1 prevMerged
    -- previous := current again
    { vs_ := vsFinal, vs := vsFinal, vur := vurNew }

/-- The loop body of `SplittingSolver.solve` (lines 319--327), iterated over an
explicit list of sub-intervals: for each interval, call `step`, record the
yielded snapshot of the solution fields, then perform the post-yield update
`self.vs_.assign(self.vs)`.  Returns the yielded list and the final state. -/
def solveSteps {V S U : Type}
    (ode : ℚ → ℚ → CompositeState V S → CompositeState V S)
    (pde : ℚ → ℚ → V → VUR V U → VUR V U) (theta : ℚ) :
    List (ℚ × ℚ) → SolverState V S U →
      List ((ℚ × ℚ) × SolverState V S U) × SolverState V S U
  | [], st => ([], st)
  | (t0, t1) :: rest, st =>
    let st1 := step ode pde theta t0 t1 st
    let r := solveSteps ode pde theta rest { st1 with vs_ := st1.vs }
    (((t0, t1), st1) :: r.1, r.2)

/-- Variant of `solveSteps` in which the previous-from-current assignment is
performed only inside `step` (once per Strang step): the post-yield
reassignment `self.vs_.assign(self.vs)` of the loop is dropped. -/
def solveStepsOnce {V S U : Type}
    (ode : ℚ → ℚ → CompositeState V S → CompositeState V S)
    (pde : ℚ → ℚ → V → VUR V U → VUR V U) (theta : ℚ) :
    List (ℚ × ℚ) → SolverState V S U →
      List ((ℚ × ℚ) × SolverState V S U) × SolverState V S U
  | [], st => ([], st)
  | (t0, t1) :: rest, st =>
    let st1 := step ode pde theta t0 t1 st
    let r := solveStepsOnce ode pde theta rest st1
    (((t0, t1), st1) :: r.1, r.2)

/-- `SplittingSolver.step` with fallible sub-solvers: each sub-solver step may
raise (return `.error`), in which case the Python exception propagates out of
`step` immediately and no later sub-step runs. -/
def stepE {V S U E : Type}
    (ode : ℚ → ℚ → CompositeState V S → Except E (CompositeState V S))
    (pde : ℚ → ℚ → V → VUR V U → Except E (VUR V U))
    (theta t0 t1 : ℚ) (st : SolverState V S U) :
    Except E (SolverState V S U) :=
  let dt := t1 - t0
  let t := t0 + theta * dt
  match ode t0 t st.vs_ with
  | .error e => .error e
  | .ok vsTent =>
    match pde t0 t1 vsTent.v st.vur with
    | .error e => .error e
    | .ok vurNew =>
      if theta = 1 then
        .ok { vs_ := st.vs_, vs := merge vurNew vsTent, vur := vurNew }
      else
        match ode t t1 (merge vurNew vsTent) with
        | .error e => .error e
        | .ok vsFinal => .ok { vs_ := vsFinal, vs := vsFinal, vur := vurNew }

/-- The generator returned by `SplittingSolver.solve` with fallible
sub-solvers: elements already yielded are recorded in the first component; the
second component is `.ok` with the final state when every step succeeded, and
`.error e` when some step raised, in which case iteration stopped there (the
exception propagates out of the generator uncaught). -/
def solveE {V S U E : Type}
    (ode : ℚ → ℚ → CompositeState V S → Except E (CompositeState V S))
    (pde : ℚ → ℚ → V → VUR V U → Except E (VUR V U)) (theta : ℚ) :
    List (ℚ × ℚ) → SolverState V S U →
      List ((ℚ × ℚ) × SolverState V S U) × Except E (SolverState V S U)
  | [], st => ([], .ok st)
  | (t0, t1) :: rest, st =>
    match stepE ode pde theta t0 t1 st with
    | .error e => ([], .error e)
    | .ok st1 =>
      let r := solveE ode pde theta rest { st1 with vs_ := st1.vs }
      (((t0, t1), st1) :: r.1, r.2)

/-- The fields of the `SplittingParameters` object that
`xalbrain/splittingsolver.py` reads: `parameters.theta` (line 341) and
`parameters.apply_stimulus_current_to_pde` (lines 193, 231). -/
structure SplittingParameters where
  theta : ℚ
  apply_stimulus_current_to_pde : Bool
deriving DecidableEq

/-- The fields of the `BidomainParameters` object that
`xalbrain/splittingsolver.py` reads: `pde_parameters.theta` (line 159) and
`pde_parameters.solver` (lines 175, 239--262, 398). -/
structure BidomainParameters where
  theta : ℚ
  solver : String
deriving DecidableEq

/-- The `I_s` argument the ODE sub-solver is constructed with
(`SplittingSolver._create_ode_solver`, lines 192--196): `None` when the
stimulus is routed to the PDE, the model's stimulus otherwise. -/
def odeSolverStimulus {Stim : Type} (parameters : SplittingParameters)
    (modelStimulus : Option Stim) : Option Stim :=
  if parameters.apply_stimulus_current_to_pde then none else modelStimulus

/-- The `I_s` argument the PDE sub-solver is constructed with
(`SplittingSolver._create_pde_solver`, lines 229--234): the model's stimulus
when it is routed to the PDE, `None` otherwise. -/
def pdeSolverStimulus {Stim : Type} (parameters : SplittingParameters)
    (modelStimulus : Option Stim) : Option Stim :=
  if parameters.apply_stimulus_current_to_pde then modelStimulus else none

/-- Construction-time events of `SplittingSolver.__init__`, in source order:
the theta consistency assertion (line 159), the creation of the ODE sub-solver
(line 166), of the PDE sub-solver (line 171) and of the merger (line 180). -/
inductive InitEvent where
  | thetaCheck
  | createOdeSolver
  | createPdeSolver
  | createMerger
deriving DecidableEq

/-- The configuration a successfully constructed `SplittingSolver` holds: the
splitting weight used by `step` (`self.parameters.theta`), the weight the PDE
sub-solver was handed (`self.pde_parameters.theta`), the PDE solver class
name, and the stimulus arguments the two sub-solvers were constructed with. -/
structure SolverConfig (Stim : Type) where
  theta : ℚ
  pdeTheta : ℚ
  pdeSolverName : String
  odeStimulusArg : Option Stim
  pdeStimulusArg : Option Stim
deriving DecidableEq

/-- `SplittingSolver.__init__` (lines 142--182): after storing the parameter
objects, `assert self.parameters.theta == self.pde_parameters.theta, msg`
runs (line 159) before `_create_ode_solver` (line 166) and
`_create_pde_solver` (line 171); a failed assertion raises with the message
`"Got two different values for theta."` and nothing further is constructed.
Returns the list of construction events that occurred together with either
the resulting configuration or the assertion error message. -/
def splittingSolverInit (Stim : Type) (parameters : SplittingParameters)
    (pde_parameters : BidomainParameters) (modelStimulus : Option Stim) :
    List InitEvent × Except String (SolverConfig Stim) :=
  if parameters.theta = pde_parameters.theta then
    ([InitEvent.thetaCheck, InitEvent.createOdeSolver,
      InitEvent.createPdeSolver, InitEvent.createMerger],
     .ok { theta := parameters.theta,
           pdeTheta := pde_parameters.theta,
           pdeSolverName := pde_parameters.solver,
           odeStimulusArg := odeSolverStimulus parameters modelStimulus,
           pdeStimulusArg := pdeSolverStimulus parameters modelStimulus })
  else
    ([InitEvent.thetaCheck], .error "Got two different values for theta.")

/-- Modelled from the spec: the `TimeStepper` used by `SplittingSolver.solve`
is imported from `xalbrain/utils.py`, which is not among the source files;
sections 4.1 and 8 of the specification describe it for a constant step size:
starting from `T0` it produces consecutive intervals of width `dt`, and the
last interval is clipped so that it ends exactly at `T1` and never overruns
it. -/
def timeStepperIntervals (T0 T1 dt : ℚ) : List (ℚ × ℚ) :=
  (List.range ⌈(T1 - T0) / dt⌉₊).map fun i : ℕ =>
    (T0 + (i : ℚ) * dt, min (T0 + ((i : ℚ) + 1) * dt) T1)

/-- Concrete ODE sub-step instance over integer-valued states, used to
evaluate the solver on explicit inputs: each step increments the
transmembrane potential and keeps the cell state. -/
def odeShift : ℚ → ℚ → CompositeState ℤ ℤ → CompositeState ℤ ℤ :=
  fun _ _ x => { v := x.v + 1, s := x.s }

/-- Concrete monodomain PDE sub-step instance over integer-valued fields,
used to evaluate the solver on explicit inputs: the output potential is the
input potential shifted by ten. -/
def pdeMonoShift : ℚ → ℚ → ℤ → VUR ℤ ℤ → VUR ℤ ℤ :=
  fun _ _ v _ => VUR.mono (v + 10)

/-- A concrete initial solver state over integer-valued fields. -/
def stZero : SolverState ℤ ℤ ℤ :=
  { vs_ := { v := 0, s := 0 }, vs := { v := 0, s := 0 }, vur := VUR.mono 0 }

/-- A concrete ODE sub-step that always raises (models
`IntegrationDivergedError` surfacing out of the ODE sub-solve). -/
def odeDiverges : ℚ → ℚ → CompositeState ℤ ℤ → Except String (CompositeState ℤ ℤ) :=
  fun _ _ _ => .error "IntegrationDivergedError"

/-- A concrete fallible PDE sub-step that always succeeds. -/
def pdeMonoOk : ℚ → ℚ → ℤ → VUR ℤ ℤ → Except String (VUR ℤ ℤ) :=
  fun _ _ v _ => .ok (VUR.mono (v + 10))

/-- Characterization of `step` in the Godunov branch `theta = 1` (where the
midpoint `t0 + theta*(t1 - t0)` coincides with `t1`). -/
theorem step_theta_one {V S U : Type}
    (ode : ℚ → ℚ → CompositeState V S → CompositeState V S)
    (pde : ℚ → ℚ → V → VUR V U → VUR V U)
    (theta t0 t1 : ℚ) (st : SolverState V S U) (h : theta = 1) :
    step ode pde theta t0 t1 st =
      { vs_ := st.vs_,
        vs := merge (pde t0 t1 (ode t0 t1 st.vs_).v st.vur) (ode t0 t1 st.vs_),
        vur := pde t0 t1 (ode t0 t1 st.vs_).v st.vur } := by
  subst h
  simp [step]

/-- Characterization of `step` in the Strang branch `theta ≠ 1`. -/
theorem step_theta_ne {V S U : Type}
    (ode : ℚ → ℚ → CompositeState V S → CompositeState V S)
    (pde : ℚ → ℚ → V → VUR V U → VUR V U)
    (theta t0 t1 : ℚ) (st : SolverState V S U) (h : ¬ theta = 1) :
    step ode pde theta t0 t1 st =
      { vs_ := ode (t0 + theta * (t1 - t0)) t1
                 (merge (pde t0 t1 (ode t0 (t0 + theta * (t1 - t0)) st.vs_).v st.vur)
                   (ode t0 (t0 + theta * (t1 - t0)) st.vs_)),
        vs := ode (t0 + theta * (t1 - t0)) t1
                (merge (pde t0 t1 (ode t0 (t0 + theta * (t1 - t0)) st.vs_).v st.vur)
                  (ode t0 (t0 + theta * (t1 - t0)) st.vs_)),
        vur := pde t0 t1 (ode t0 (t0 + theta * (t1 - t0)) st.vs_).v st.vur } := by
  simp only [step, if_neg h]

/-- A solver state whose previous and current composite states agree is left
unchanged by the assignment `self.vs_.assign(self.vs)`. -/
theorem solverState_assign_self {V S U : Type} (x : SolverState V S U)
    (h : x.vs_ = x.vs) : { x with vs_ := x.vs } = x := by
  cases x
  simp only at h
  rw [h]

/-- C1: over any interval `(t0, t1)` with `dt = t1 - t0` and splitting weight
`theta`, `SplittingSolver.step` performs exactly the claimed sequence: a
tentative ODE sub-step over `(t0, t0 + theta*dt)` from the previous state
`vs_` producing the tentative current state `vs`; a PDE sub-step over
`(t0, t1)` with the tentative transmembrane potential frozen, producing
`vur`; then, if `theta = 1`, a merge of the PDE transmembrane potential into
`vs` (auxiliary variables retained) and termination; otherwise
`previous := current`, merge into previous, an ODE sub-step over
`(t0 + theta*dt, t1)` producing the final current state, and
`previous := current` again. -/
theorem step_matches_spec_sequence_C1 (V S U : Type)
    (ode : ℚ → ℚ → CompositeState V S → CompositeState V S)
    (pde : ℚ → ℚ → V → VUR V U → VUR V U)
    (theta t0 t1 : ℚ) (st : SolverState V S U) :
    step ode pde theta t0 t1 st = stepSpecC1 ode pde theta t0 t1 st := by
  unfold step stepSpecC1
  by_cases h : theta = 1 <;> simp [h]

/-- C3: `SplittingSolver.merge(target)` overwrites only the transmembrane
potential sub-component of the target with the PDE solver's current
transmembrane potential (`vur.sub(0)` for the bidomain solvers, `vur` itself
for the monodomain solvers); the other sub-components are unchanged. -/
theorem merge_frame_C3 (V S U : Type) (vur : VUR V U)
    (target : CompositeState V S) :
    (merge vur target).s = target.s ∧
    (merge vur target).v = vur.subv ∧
    (∀ (v : V) (u : U), (VUR.bi v u).subv = v) ∧
    (∀ v : V, (VUR.mono v : VUR V U).subv = v) :=
  ⟨rfl, rfl, fun _ _ => rfl, fun _ => rfl⟩

/-- C4: `SplittingSolver.merge` is idempotent for a fixed PDE output: merging
twice with the same `vur` leaves the target unchanged on the second call. -/
theorem merge_idempotent_C4 (V S U : Type) (vur : VUR V U)
    (target : CompositeState V S) :
    merge vur (merge vur target) = merge vur target :=
  rfl

/-- C2: entering `SplittingSolver.step` with the previous state valid at `t0`
and with the sub-solver contracts stated in the source's comments (the ODE
step turns a state valid at the interval start into one valid at its end, the
PDE step yields a field valid at the interval end, and merging a `t1`-valid
PDE potential into a valid composite state yields a valid composite state),
the current state `vs` and the PDE output `vur` are valid at `t1` on exit;
the transmembrane sub-component of `vur` equals that of `vs` when
`theta = 1`, and for `theta < 1` this equality is not guaranteed: it fails
for a concrete solver instance with `theta = 1/2`. -/
theorem step_invariant_C2 (V S U : Type)
    (ode : ℚ → ℚ → CompositeState V S → CompositeState V S)
    (pde : ℚ → ℚ → V → VUR V U → VUR V U)
    (validVS : ℚ → CompositeState V S → Prop)
    (validVUR : ℚ → VUR V U → Prop)
    (theta t0 t1 : ℚ) (st : SolverState V S U)
    (hvs0 : validVS t0 st.vs_)
    (hode : ∀ a b x, validVS a x → validVS b (ode a b x))
    (hpde : ∀ a b v w, validVUR b (pde a b v w))
    (hmerge : ∀ s w x, validVUR t1 w → validVS s x → validVS s (merge w x)) :
    validVS t1 (step ode pde theta t0 t1 st).vs ∧
    validVUR t1 (step ode pde theta t0 t1 st).vur ∧
    (theta = 1 →
      (step ode pde theta t0 t1 st).vur.subv =
        (step ode pde theta t0 t1 st).vs.v) ∧
    (step odeShift pdeMonoShift (1 / 2) 0 1 stZero).vur.subv ≠
      (step odeShift pdeMonoShift (1 / 2) 0 1 stZero).vs.v := by
  have hcex : (step odeShift pdeMonoShift (1 / 2) 0 1 stZero).vur.subv ≠
      (step odeShift pdeMonoShift (1 / 2) 0 1 stZero).vs.v := by
    rw [step_theta_ne _ _ _ _ _ _ (by norm_num)]
    simp [odeShift, pdeMonoShift, stZero, merge, VUR.subv]
  by_cases h : theta = 1
  · rw [step_theta_one ode pde theta t0 t1 st h]
    refine ⟨?_, ?_, fun _ => ?_, hcex⟩
    · exact hmerge t1 _ _ (hpde _ _ _ _) (hode t0 t1 _ hvs0)
    · exact hpde _ _ _ _
    · rfl
  · rw [step_theta_ne ode pde theta t0 t1 st h]
    refine ⟨?_, ?_, fun h1 => absurd h1 h, hcex⟩
    · exact hode _ _ _ (hmerge _ _ _ (hpde _ _ _ _) (hode _ _ _ hvs0))
    · exact hpde _ _ _ _

/-- Witness for C2: the invariant instantiated at a concrete integer-valued
solver with `theta = 1`, all hypotheses discharged. -/
theorem step_invariant_C2_witness :
    True ∧ True ∧
    ((1 : ℚ) = 1 →
      (step odeShift pdeMonoShift 1 0 1 stZero).vur.subv =
        (step odeShift pdeMonoShift 1 0 1 stZero).vs.v) ∧
    (step odeShift pdeMonoShift (1 / 2) 0 1 stZero).vur.subv ≠
      (step odeShift pdeMonoShift (1 / 2) 0 1 stZero).vs.v :=
  step_invariant_C2 ℤ ℤ ℤ odeShift pdeMonoShift
    (fun _ _ => True) (fun _ _ => True) 1 0 1 stZero trivial
    (fun _ _ _ _ => trivial) (fun _ _ _ _ => trivial)
    (fun _ _ _ _ _ => trivial)

/-- C5: exactly one of the two sub-solvers is constructed with the model's
stimulus: when `apply_stimulus_current_to_pde` is true the PDE solver
receives it and the ODE solver receives `None`; when it is false the ODE
solver receives it and the PDE solver receives `None`; in no configuration
do both or neither receive it. -/
theorem stimulus_routing_C5 (Stim : Type) (parameters : SplittingParameters)
    (stim : Stim) :
    (parameters.apply_stimulus_current_to_pde = true →
      pdeSolverStimulus parameters (some stim) = some stim ∧
      odeSolverStimulus parameters (some stim) = none) ∧
    (parameters.apply_stimulus_current_to_pde = false →
      odeSolverStimulus parameters (some stim) = some stim ∧
      pdeSolverStimulus parameters (some stim) = none) ∧
    (odeSolverStimulus parameters (some stim) = some stim ↔
      ¬ pdeSolverStimulus parameters (some stim) = some stim) ∧
    ¬ (odeSolverStimulus parameters (some stim) = none ∧
       pdeSolverStimulus parameters (some stim) = none) := by
  cases h : parameters.apply_stimulus_current_to_pde <;>
    simp [odeSolverStimulus, pdeSolverStimulus, h]

/-- Witness for C5: the routing at a concrete configuration that applies the
stimulus to the PDE. -/
theorem stimulus_routing_C5_witness :
    (({ theta := 1, apply_stimulus_current_to_pde := true } :
        SplittingParameters).apply_stimulus_current_to_pde = true →
      pdeSolverStimulus { theta := 1, apply_stimulus_current_to_pde := true }
          (some (3 : ℤ)) = some 3 ∧
      odeSolverStimulus { theta := 1, apply_stimulus_current_to_pde := true }
          (some (3 : ℤ)) = none) ∧
    (({ theta := 1, apply_stimulus_current_to_pde := true } :
        SplittingParameters).apply_stimulus_current_to_pde = false →
      odeSolverStimulus { theta := 1, apply_stimulus_current_to_pde := true }
          (some (3 : ℤ)) = some 3 ∧
      pdeSolverStimulus { theta := 1, apply_stimulus_current_to_pde := true }
          (some (3 : ℤ)) = none) ∧
    (odeSolverStimulus { theta := 1, apply_stimulus_current_to_pde := true }
        (some (3 : ℤ)) = some 3 ↔
      ¬ pdeSolverStimulus { theta := 1, apply_stimulus_current_to_pde := true }
          (some (3 : ℤ)) = some 3) ∧
    ¬ (odeSolverStimulus { theta := 1, apply_stimulus_current_to_pde := true }
        (some (3 : ℤ)) = none ∧
       pdeSolverStimulus { theta := 1, apply_stimulus_current_to_pde := true }
        (some (3 : ℤ)) = none) :=
  stimulus_routing_C5 ℤ { theta := 1, apply_stimulus_current_to_pde := true } 3

/-- C6: for `dt > 0` and `T1 > T0` the interval sequence iterated by
`SplittingSolver.solve` exactly tiles `[T0, T1]`: it is nonempty, the first
interval starts at `T0`, each interval's end equals the next interval's
start, the final interval's end equals `T1` exactly, every interval has
width at most `dt` and never overruns `T1`; and the concrete scenario
`(0, 0.5)` with `dt = 0.1` yields exactly the five claimed sub-intervals. -/
theorem timeStepper_tiling_C6 (T0 T1 dt : ℚ) (hdt : 0 < dt) (hT : T0 < T1) :
    timeStepperIntervals T0 T1 dt ≠ [] ∧
    (timeStepperIntervals T0 T1 dt).head?.map Prod.fst = some T0 ∧
    (∀ i : ℕ, i + 1 < (timeStepperIntervals T0 T1 dt).length →
      (timeStepperIntervals T0 T1 dt)[i]?.map Prod.snd =
        (timeStepperIntervals T0 T1 dt)[i + 1]?.map Prod.fst) ∧
    (timeStepperIntervals T0 T1 dt).getLast?.map Prod.snd = some T1 ∧
    (∀ p ∈ timeStepperIntervals T0 T1 dt, p.2 - p.1 ≤ dt ∧ p.2 ≤ T1) ∧
    timeStepperIntervals 0 (1 / 2) (1 / 10) =
      [(0, 1 / 10), (1 / 10, 2 / 10), (2 / 10, 3 / 10), (3 / 10, 4 / 10),
        (4 / 10, 1 / 2)] := by
  have hx : 0 < (T1 - T0) / dt := div_pos (by linarith) hdt
  have hn : 0 < ⌈(T1 - T0) / dt⌉₊ := Nat.ceil_pos.mpr hx
  have hlen : (timeStepperIntervals T0 T1 dt).length = ⌈(T1 - T0) / dt⌉₊ := by
    unfold timeStepperIntervals
    rw [List.length_map, List.length_range]
  have helem : ∀ i : ℕ, i < ⌈(T1 - T0) / dt⌉₊ →
      (timeStepperIntervals T0 T1 dt)[i]? =
        some (T0 + (i : ℚ) * dt, min (T0 + ((i : ℚ) + 1) * dt) T1) := by
    intro i hi
    unfold timeStepperIntervals
    rw [List.getElem?_map, List.getElem?_range hi, Option.map_some']
  have hne : timeStepperIntervals T0 T1 dt ≠ [] := by
    intro h
    rw [← List.length_eq_zero] at h
    omega
  refine ⟨hne, ?_, ?_, ?_, ?_, ?_⟩
  · rw [List.head?_eq_getElem?, helem 0 hn]
    norm_num
  · intro i hi
    rw [hlen] at hi
    have h1 : i < ⌈(T1 - T0) / dt⌉₊ := by omega
    rw [helem i h1, helem (i + 1) hi]
    have hlt : ((i : ℚ) + 1) < (T1 - T0) / dt := by
      have h2 := Nat.lt_ceil.mp hi
      push_cast at h2
      linarith
    have hle : T0 + ((i : ℚ) + 1) * dt ≤ T1 := by
      rw [lt_div_iff₀ hdt] at hlt
      linarith
    rw [Option.map_some', Option.map_some']
    simp only [min_eq_left hle]
    push_cast
    ring_nf
  · rw [List.getLast?_eq_getElem?, hlen, helem _ (by omega)]
    have hge : T1 ≤ T0 + (((⌈(T1 - T0) / dt⌉₊ - 1 : ℕ) : ℚ) + 1) * dt := by
      have h1 : ((⌈(T1 - T0) / dt⌉₊ - 1 : ℕ) : ℚ) + 1 =
          (⌈(T1 - T0) / dt⌉₊ : ℚ) := by
        have h2 : (1 : ℕ) ≤ ⌈(T1 - T0) / dt⌉₊ := hn
        push_cast [Nat.cast_sub h2]
        ring
      rw [h1]
      have h3 : (T1 - T0) / dt ≤ (⌈(T1 - T0) / dt⌉₊ : ℚ) := Nat.le_ceil _
      rw [div_le_iff₀ hdt] at h3
      linarith
    rw [Option.map_some']
    simp only [min_eq_right hge]
  · intro p hp
    unfold timeStepperIntervals at hp
    rw [List.mem_map] at hp
    simp only [List.mem_range] at hp
    obtain ⟨i, hi, rfl⟩ := hp
    constructor
    · have h4 : min (T0 + ((i : ℚ) + 1) * dt) T1 ≤ T0 + ((i : ℚ) + 1) * dt :=
        min_le_left _ _
      simp only at h4 ⊢
      linarith
    · exact min_le_right _ _
  · unfold timeStepperIntervals
    rw [show ((1 : ℚ) / 2 - 0) / (1 / 10) = 5 by norm_num]
    rw [show ⌈(5 : ℚ)⌉₊ = 5 by norm_num]
    simp only [List.range_succ, List.range_zero, List.map_append, List.map_cons,
      List.map_nil, List.nil_append, List.cons_append, Nat.cast_ofNat,
      Nat.cast_one, Nat.cast_zero]
    norm_num

/-- Witness for C6: the tiling at the concrete interval `(0, 0.5)` with
`dt = 0.1`. -/
theorem timeStepper_tiling_C6_witness :
    (0 : ℚ) < 1 / 10 ∧ (0 : ℚ) < 1 / 2 ∧
    (timeStepperIntervals 0 (1 / 2) (1 / 10)).getLast?.map Prod.snd =
      some (1 / 2) :=
  ⟨by norm_num, by norm_num,
    (timeStepper_tiling_C6 0 (1 / 2) (1 / 10) (by norm_num)
        (by norm_num)).2.2.2.1⟩

/-- C7: a sub-step failure propagates uncaught out of the lazy generator of
`SplittingSolver.solve`: a failing step yields nothing and surfaces the error
no matter how many intervals remain (no retry, fallback or partial-step
recovery), a successful prefix composes (so everything yielded before a
failure is exactly what the successful prefix yielded and remains available),
and a failure right after a successful prefix leaves precisely that prefix of
yields together with the error. -/
theorem solve_error_propagation_C7 (V S U E : Type)
    (ode : ℚ → ℚ → CompositeState V S → Except E (CompositeState V S))
    (pde : ℚ → ℚ → V → VUR V U → Except E (VUR V U)) (theta : ℚ) :
    (∀ t0 t1 rest st e, stepE ode pde theta t0 t1 st = .error e →
      solveE ode pde theta ((t0, t1) :: rest) st = ([], .error e)) ∧
    (∀ ivs more st stF, (solveE ode pde theta ivs st).2 = .ok stF →
      solveE ode pde theta (ivs ++ more) st =
        ((solveE ode pde theta ivs st).1 ++ (solveE ode pde theta more stF).1,
         (solveE ode pde theta more stF).2)) ∧
    (∀ pre t0 t1 post st stF e,
      (solveE ode pde theta pre st).2 = .ok stF →
      stepE ode pde theta t0 t1 stF = .error e →
      solveE ode pde theta (pre ++ (t0, t1) :: post) st =
        ((solveE ode pde theta pre st).1, .error e)) := by
  have hA : ∀ t0 t1 rest st e, stepE ode pde theta t0 t1 st = .error e →
      solveE ode pde theta ((t0, t1) :: rest) st = ([], .error e) := by
    intro t0 t1 rest st e h
    simp [solveE, h]
  have hB : ∀ ivs more st stF, (solveE ode pde theta ivs st).2 = .ok stF →
      solveE ode pde theta (ivs ++ more) st =
        ((solveE ode pde theta ivs st).1 ++ (solveE ode pde theta more stF).1,
         (solveE ode pde theta more stF).2) := by
    intro ivs
    induction ivs with
    | nil =>
      intro more st stF h
      have h2 : st = stF := by simpa [solveE] using h
      subst h2
      simp [solveE]
    | cons iv rest ih =>
      intro more st stF h
      obtain ⟨t0, t1⟩ := iv
      cases hst : stepE ode pde theta t0 t1 st with
      | error e =>
        simp [solveE, hst] at h
      | ok st1 =>
        simp only [List.cons_append, List.append_eq, solveE, hst] at h ⊢
        rw [ih more _ stF h]
  refine ⟨hA, hB, ?_⟩
  intro pre t0 t1 post st stF e h1 h2
  rw [hB pre ((t0, t1) :: post) st stF h1, hA t0 t1 post stF e h2]
  simp

/-- Witness for C7: a concrete run whose first ODE sub-step raises. -/
theorem solve_error_propagation_C7_witness :
    stepE odeDiverges pdeMonoOk 1 0 1 stZero =
      .error "IntegrationDivergedError" ∧
    solveE odeDiverges pdeMonoOk 1 [(0, 1)] stZero =
      ([], .error "IntegrationDivergedError") :=
  ⟨rfl, (solve_error_propagation_C7 ℤ ℤ ℤ String odeDiverges pdeMonoOk 1).1
    0 1 [] stZero "IntegrationDivergedError" rfl⟩

/-- C8: for `theta ≠ 1`, `SplittingSolver.step` ends with
`previous := current`, so at the yield point of `solve` the previous and
current states agree, the post-yield reassignment leaves the state unchanged,
and the solve loop is observationally equivalent (same yielded sequence, same
final state) to the variant performing the previous-from-current assignment
only once per Strang step. -/
theorem strang_redundant_assign_C8 (V S U : Type)
    (ode : ℚ → ℚ → CompositeState V S → CompositeState V S)
    (pde : ℚ → ℚ → V → VUR V U → VUR V U)
    (theta : ℚ) (h : ¬ theta = 1) :
    (∀ t0 t1 st,
      (step ode pde theta t0 t1 st).vs_ = (step ode pde theta t0 t1 st).vs) ∧
    (∀ t0 t1 st,
      { step ode pde theta t0 t1 st with
          vs_ := (step ode pde theta t0 t1 st).vs } =
        step ode pde theta t0 t1 st) ∧
    (∀ ivs st,
      solveSteps ode pde theta ivs st = solveStepsOnce ode pde theta ivs st) := by
  have hA : ∀ t0 t1 st,
      (step ode pde theta t0 t1 st).vs_ = (step ode pde theta t0 t1 st).vs := by
    intro t0 t1 st
    rw [step_theta_ne ode pde theta t0 t1 st h]
  have hB : ∀ t0 t1 st,
      { step ode pde theta t0 t1 st with
          vs_ := (step ode pde theta t0 t1 st).vs } =
        step ode pde theta t0 t1 st :=
    fun t0 t1 st => solverState_assign_self _ (hA t0 t1 st)
  have hC : ∀ ivs st,
      solveSteps ode pde theta ivs st = solveStepsOnce ode pde theta ivs st := by
    intro ivs
    induction ivs with
    | nil => intro st; rfl
    | cons iv rest ih =>
      intro st
      obtain ⟨t0, t1⟩ := iv
      simp only [solveSteps, solveStepsOnce]
      rw [hB t0 t1 st, ih]
  exact ⟨hA, hB, hC⟩

/-- Witness for C8: the equivalence at a concrete Strang configuration. -/
theorem strang_redundant_assign_C8_witness :
    ¬ (1 / 2 : ℚ) = 1 ∧
    solveSteps odeShift pdeMonoShift (1 / 2) [(0, 1)] stZero =
      solveStepsOnce odeShift pdeMonoShift (1 / 2) [(0, 1)] stZero :=
  ⟨by norm_num,
    (strang_redundant_assign_C8 ℤ ℤ ℤ odeShift pdeMonoShift (1 / 2)
        (by norm_num)).2.2 [(0, 1)] stZero⟩

/-- C9: `SplittingSolver.__init__` fails with the assertion message
`"Got two different values for theta."` exactly when the splitting and PDE
parameter objects disagree on theta, and in that case neither sub-solver is
created; when they agree the construction succeeds and both the orchestration
weight and the PDE weight equal the single value `parameters.theta`. -/
theorem init_theta_consistency_C9 (Stim : Type)
    (parameters : SplittingParameters) (pde_parameters : BidomainParameters)
    (modelStimulus : Option Stim) :
    (¬ parameters.theta = pde_parameters.theta →
      splittingSolverInit Stim parameters pde_parameters modelStimulus =
        ([InitEvent.thetaCheck],
          .error "Got two different values for theta.") ∧
      InitEvent.createOdeSolver ∉
        (splittingSolverInit Stim parameters pde_parameters modelStimulus).1 ∧
      InitEvent.createPdeSolver ∉
        (splittingSolverInit Stim parameters pde_parameters modelStimulus).1) ∧
    (parameters.theta = pde_parameters.theta →
      ∃ cfg,
        (splittingSolverInit Stim parameters pde_parameters modelStimulus).2 =
          .ok cfg ∧
        cfg.theta = parameters.theta ∧ cfg.pdeTheta = parameters.theta) := by
  by_cases h : parameters.theta = pde_parameters.theta
  · refine ⟨fun hc => absurd h hc, fun _ => ?_⟩
    refine ⟨{ theta := parameters.theta, pdeTheta := pde_parameters.theta,
              pdeSolverName := pde_parameters.solver,
              odeStimulusArg := odeSolverStimulus parameters modelStimulus,
              pdeStimulusArg := pdeSolverStimulus parameters modelStimulus },
            ?_, rfl, h.symm⟩
    simp [splittingSolverInit, h]
  · refine ⟨fun _ => ⟨?_, ?_, ?_⟩, fun hc => absurd hc h⟩ <;>
      simp [splittingSolverInit, h]

/-- Witness for C9: construction at concrete disagreeing weights fails with
the assertion message. -/
theorem init_theta_consistency_C9_witness :
    ¬ (({ theta := 1, apply_stimulus_current_to_pde := false } :
          SplittingParameters).theta =
        ({ theta := 1 / 2, solver := "BidomainSolver" } :
          BidomainParameters).theta) ∧
    splittingSolverInit Unit
        { theta := 1, apply_stimulus_current_to_pde := false }
        { theta := 1 / 2, solver := "BidomainSolver" } none =
      ([InitEvent.thetaCheck], .error "Got two different values for theta.") :=
  ⟨by norm_num,
    ((init_theta_consistency_C9 Unit
        { theta := 1, apply_stimulus_current_to_pde := false }
        { theta := 1 / 2, solver := "BidomainSolver" } none).1
      (by norm_num)).1⟩

end ECT
